import Mathlib

/-!
Shallow embedding of the automatic-optimization layer in
dace/transformation/auto/auto_optimize.py, together with theorems about the
heuristic decision logic of its five public routines: greedy_fuse, tile_wcrs,
find_fast_library, move_small_arrays_to_stack and set_fast_implementations.

External collaborators (the rewrite primitives, the conflict analysis, the
symbolic engine, the library installation probes) are passed in as explicit
function parameters, exactly at the points where the Python code calls out to
them.  Everything that the Python code decides itself (branch conditions,
filters, argument forwarding, in-place field updates) is embedded as
executable Lean definitions.
-/

namespace DaceAuto

/-! ## Basic enumerations of the data model -/

/-- Device types (dace.dtypes.DeviceType), restricted to the constructors the
source distinguishes: GPU, CPU and everything else (represented by FPGA). -/
inductive Device
  | CPU
  | GPU
  | FPGA
deriving DecidableEq

/-- Map schedules; the source only ever writes ScheduleType.Sequential, every
other schedule is collapsed into Default. -/
inductive ScheduleType
  | Default
  | Sequential
deriving DecidableEq

/-- Reduction types as returned by operations.detect_reduction_type. -/
inductive RedType
  | sum
  | product
  | rmin
  | rmax
  | custom
deriving DecidableEq

/-- Element data types of array descriptors. -/
inductive DType
  | float32
  | float64
  | int32
  | int64
  | other
deriving DecidableEq

/-- Node kinds relevant to the edge filters of tile_wcrs:
EntryNode, ExitNode, Tasklet, AccessNode, NestedSDFG. -/
inductive NKind
  | entry
  | exitNode
  | tasklet
  | access
  | nested
deriving DecidableEq

/-- A symbolic nonnegative size: either a concrete number or an unresolved
symbolic expression (identified by its text). -/
inductive SymNat
  | concrete (n : Nat)
  | symbolic (name : String)
deriving DecidableEq

/-- The three-valued comparison "(s < t) == True" used by tile_wcrs
(lines 212-213 and 226-228 of auto_optimize.py): it is true only when the
comparison is provably true; a provably false or indeterminate comparison
yields false. -/
def provablyLt : SymNat → Nat → Bool
  | SymNat.concrete n, t => decide (n < t)
  | SymNat.symbolic _, _ => false

/-- Product of symbolic sizes (dt._prod over sympy expressions): concrete when
every factor is concrete, symbolic as soon as one factor is symbolic. -/
def symProd : List SymNat → SymNat
  | [] => SymNat.concrete 1
  | s :: rest =>
    match s, symProd rest with
    | SymNat.concrete a, SymNat.concrete b => SymNat.concrete (a * b)
    | SymNat.symbolic n, _ => SymNat.symbolic n
    | SymNat.concrete _, SymNat.symbolic n => SymNat.symbolic n

/-! ## Graph state model for tile_wcrs -/

/-- The fields of a Memlet that tile_wcrs inspects: the write-conflict
resolution combinator, the referenced array name, the wcr_nonatomic and
dynamic flags, emptiness, and whether dst_subset is present with a nonzero
number of elements. -/
structure Memlet where
  wcr : Option RedType
  data : String
  wcrNonatomic : Bool
  dynamic : Bool
  empty : Bool
  dstSubsetNonzero : Bool
deriving DecidableEq

/-- A dataflow edge: kinds of its endpoints plus its memlet. -/
structure DEdge where
  srcKind : NKind
  dstKind : NKind
  mem : Memlet
deriving DecidableEq

/-- A map scope entry: identifier, iteration parameters, per-dimension range
sizes, and the current schedule. -/
structure MapScope where
  id : Nat
  params : List String
  sizes : List SymNat
  schedule : ScheduleType
deriving DecidableEq

/-- An array descriptor entry of sdfg.arrays, reduced to the fields tile_wcrs
reads: name, element dtype, and whether it is a dt.Stream. -/
structure ArrayDecl where
  name : String
  dtype : DType
  stream : Bool
deriving DecidableEq

/-- The mutable state a single tile_wcrs call operates on: the map-entry
nodes of the state, the data edges, and the array descriptors of the parent
SDFG. -/
structure TState where
  maps : List MapScope
  edges : List DEdge
  arrays : List ArrayDecl
deriving DecidableEq

/-- Lookup of sdfg.arrays[name].dtype. -/
def lookupDType (st : TState) (nm : String) : DType :=
  match st.arrays.find? (fun a => a.name == nm) with
  | some a => a.dtype
  | none => DType.other

/-- Lookup of isinstance(sdfg.arrays[name], dt.Stream). -/
def lookupStream (st : TState) (nm : String) : Bool :=
  match st.arrays.find? (fun a => a.name == nm) with
  | some a => a.stream
  | none => false

/-- External collaborators consumed by tile_wcrs, as contracts:
cpp.is_write_conflicted_with_reason (returning the implicated map-entry id
when the reason is an EntryNode), dtypes.reduction_identity,
cpp.write_conflicted_map_params, xfh.extract_map_dims, MapTiling.apply_to,
the out-edges of the exit node of a given map after tiling, the recognized
three-hop tasklet path test for StreamTransient, StreamTransient.apply_to and
AccumulateTransient.apply_to. -/
structure Collab where
  reasonOf : DEdge → Option Nat
  identityOf : DType → RedType → Option Int
  conflictParams : Nat → DEdge → List String
  extractDims : TState → Nat → List Nat → TState
  tileMap : TState → Nat → Nat → TState
  outEdgesOfExit : TState → Nat → List DEdge
  streamPathOk : TState → DEdge → Bool
  streamTransient : TState → Nat → DEdge → TState
  accumulate : TState → Nat → DEdge → Int → TState

/-- Process-wide configuration read by tile_wcrs and
move_small_arrays_to_stack: optimizer.autotile_size,
optimizer.autotile_partial_parallelism, debugprint. -/
structure TConfig where
  tileSize : Nat
  autotilePP : Bool
  debugPrint : Bool

/-- Lines 185-187: the caller-supplied preference is used when set, otherwise
the process configuration value is read. -/
def effectivePP : Option Bool → Bool → Bool
  | none, cfgVal => cfgVal
  | some b, _ => b

/-! ## tile_wcrs, embedded stage by stage (lines 157-275) -/

/-- Lines 159-181: the discovery filter for one edge.  An edge is retained
together with the implicated map-entry id when: it carries a wcr; it is not an
intermediate edge (source an ExitNode or NestedSDFG, or destination an
EntryNode); the conflict reason is an EntryNode; that entry lies inside the
processed subregion; and a reduction identity is resolvable for the pair of
the buffer element type and the reduction type. -/
def discoveryAccept (c : Collab) (st : TState) (e : DEdge) : Option (DEdge × Nat) :=
  match e.mem.wcr with
  | none => none
  | some red =>
    if e.srcKind == NKind.exitNode || e.srcKind == NKind.nested
        || e.dstKind == NKind.entry then
      none
    else
      match c.reasonOf e with
      | none => none
      | some mid =>
        if !((st.maps.map MapScope.id).contains mid) then none
        else if (c.identityOf (lookupDType st e.mem.data) red).isSome then
          some (e, mid)
        else none

/-- Lines 157-181: edges_to_consider, the set of retained (edge, map-entry)
pairs. -/
def edgesToConsider (c : Collab) (st : TState) : List (DEdge × Nat) :=
  st.edges.filterMap (discoveryAccept c st)

/-- Lines 199-204: the union of cpp.write_conflicted_map_params over all
retained wcr edges of a given map. -/
def conflictsOf (c : Collab) (etc : List (DEdge × Nat)) (mid : Nat) : List String :=
  (etc.filter (fun em => em.2 == mid)).flatMap (fun em => c.conflictParams mid em.1)

/-- Lines 206-211: the indices of the map parameters that are not involved in
any conflict. -/
def nonconflictedDims (params conflicts : List String) : List Nat :=
  (params.enum.filter (fun pe => !(conflicts.contains pe.2))).map Prod.fst

/-- Line 212: the sizes of the selected dimension indices. -/
def selectedSizes (sizes : List SymNat) (dims : List Nat) : List SymNat :=
  (sizes.enum.filter (fun se => dims.contains se.1)).map Prod.snd

/-- Lines 197-218: one step of the partial-parallelism extraction loop over an
implicated map.  When the map has nonconflicted dimensions and the product of
their sizes is not provably below the tile size, exactly those dimensions are
hoisted via the external extraction transform and the map is marked
transformed (handled). -/
def extractStep (tile : Nat) (c : Collab) (etc : List (DEdge × Nat))
    (acc : TState × List Nat) (mid : Nat) : TState × List Nat :=
  match acc.1.maps.find? (fun m => m.id == mid) with
  | none => acc
  | some m =>
    let dims := nonconflictedDims m.params (conflictsOf c etc mid)
    if dims.isEmpty then acc
    else if provablyLt (symProd (selectedSizes m.sizes dims)) tile then acc
    else (c.extractDims acc.1 mid dims, mid :: acc.2)

/-- Sets the schedule of the map with the given id (line 234,
mapentry.map.schedule = dtypes.ScheduleType.Sequential). -/
def setSchedule (st : TState) (mid : Nat) (sch : ScheduleType) : TState :=
  { st with
    maps := st.maps.map (fun m => if m.id == mid then { m with schedule := sch } else m) }

/-- Lines 174-179 repeated at lines 256-267: the accumulation filter on one
outgoing edge of the tiled map exit.  Returns the reduction identity to seed
the private accumulation buffer with, or none when the edge must be skipped
(empty memlet, no wcr, nonatomic override, dynamic fully-sized subset, or no
resolvable identity). -/
def accumulateIdentity (c : Collab) (st : TState) (e : DEdge) : Option Int :=
  if e.mem.empty then none
  else
    match e.mem.wcr with
    | none => none
    | some red =>
      if e.mem.wcrNonatomic then none
      else if e.mem.dstSubsetNonzero && e.mem.dynamic then none
      else c.identityOf (lookupDType st e.mem.data) red

/-- Lines 244-272: processing of one outgoing edge of the tiled map exit:
stream edges get a StreamTransient when the three-hop tasklet path is
recognized; other edges get an AccumulateTransient seeded with the reduction
identity when the accumulation filter accepts them; every other edge is left
untransformed. -/
def accumulateEdgeStep (c : Collab) (mid : Nat) (st : TState) (e : DEdge) : TState :=
  if lookupStream st e.mem.data then
    if c.streamPathOk st e then c.streamTransient st mid e else st
  else
    match accumulateIdentity c st e with
    | some idv => c.accumulate st mid e idv
    | none => st

/-- Lines 238-272: the tiling branch for one map: apply MapTiling with the
configured tile size, then process every outgoing edge of the map exit. -/
def tilingBranch (tile : Nat) (c : Collab) (st : TState) (mid : Nat) : TState :=
  let st1 := c.tileMap st mid tile
  (c.outEdgesOfExit st1 mid).foldl (accumulateEdgeStep c mid) st1

/-- Lines 221-272: one step of the tile-and-accumulate loop over the retained
(edge, map) pairs.  A map already transformed is skipped; otherwise it is
marked transformed and either made sequential (every dimension size provably
strictly below the tile size) or tiled. -/
def tileStep (tile : Nat) (c : Collab) (acc : TState × List Nat)
    (em : DEdge × Nat) : TState × List Nat :=
  if acc.2.contains em.2 then acc
  else
    match acc.1.maps.find? (fun m => m.id == em.2) with
    | none => (acc.1, em.2 :: acc.2)
    | some m =>
      if m.sizes.all (fun s => provablyLt s tile) then
        (setSchedule acc.1 em.2 ScheduleType.Sequential, em.2 :: acc.2)
      else
        (tilingBranch tile c acc.1 em.2, em.2 :: acc.2)

/-- Lines 152-275: tile_wcrs on a single state: discovery, optional
partial-parallelism extraction over the implicated maps, then tiling or
sequentialization of every not-yet-handled implicated map. -/
def tile_wcrs_state (cfg : TConfig) (c : Collab) (preferArg : Option Bool)
    (st : TState) : TState :=
  let etc := edgesToConsider c st
  let mids := (etc.map Prod.snd).dedup
  let afterExtract :=
    if effectivePP preferArg cfg.autotilePP then
      mids.foldl (extractStep cfg.tileSize c etc) (st, ([] : List Nat))
    else (st, ([] : List Nat))
  (etc.foldl (tileStep cfg.tileSize c) afterExtract).1

/-- The argument record of a tile_wcrs call: the validate_all flag and the
optional prefer_partial_parallelism argument (default None). -/
structure TileWcrsArgs where
  validateAll : Bool
  preferPP : Option Bool
deriving DecidableEq

/-- Lines 148-151: when tile_wcrs is invoked on a whole SDFG, each state is
processed by the call tile_wcrs(state, validate_all): only validate_all is
forwarded, the preference argument is left at its default None. -/
def perStateCallArgs (caller : TileWcrsArgs) : TileWcrsArgs :=
  { validateAll := caller.validateAll, preferPP := none }

/-- Lines 148-151: the SDFG-level loop of tile_wcrs. -/
def tile_wcrs_sdfg (cfg : TConfig) (c : Collab) (args : TileWcrsArgs)
    (states : List TState) : List TState :=
  states.map (fun st => tile_wcrs_state cfg c (perStateCallArgs args).preferPP st)

/-! ## greedy_fuse (lines 28-121) -/

/-- The events of the state-level branch of greedy_fuse that matter for the
validation policy: an applied composite fusion (line 93), the validation right
after it (line 94), and the end-of-pass validation (lines 119-120). -/
inductive GFEvent
  | fusionApplied
  | stepValidate
  | endValidate
deriving DecidableEq

/-- Lines 85-120, projected onto fusion/validation events.  The enumerator is
abstracted into the list of candidate-set sizes it yields.  For every
candidate set with more than one member the fusion is applied and
sdfg.validate() runs unconditionally right after it (lines 93-94); at the end,
graph.validate() runs exactly when validate_all is set (lines 119-120). -/
def stateFuseEvents (validateAll : Bool) (candSizes : List Nat) : List GFEvent :=
  (candSizes.flatMap fun n =>
    if 1 < n then [GFEvent.fusionApplied, GFEvent.stepValidate] else []) ++
  (if validateAll then [GFEvent.endValidate] else [])

/-- The argument record of a greedy_fuse call (lines 28-33); the declared
defaults are device = CPU, recursive = true, tile = false. -/
structure FuseArgs where
  validateAll : Bool
  device : Device
  recursive : Bool
  tile : Bool
deriving DecidableEq

/-- The defaults of greedy_fuse applied to a call that passes only
validate_all (lines 28-33). -/
def greedyFuseDefaultArgs (validateAll : Bool) : FuseArgs :=
  { validateAll := validateAll, device := Device.CPU, recursive := true, tile := false }

/-- Lines 99-102: the recursive descent into the body of a just-processed
scope passes only validate_all; every other parameter takes its declared
default. -/
def scopeDescentArgs (outer : FuseArgs) : FuseArgs :=
  greedyFuseDefaultArgs outer.validateAll

/-- Lines 104-110: the descent into a NestedSDFG node forwards validate_all,
device, tile and recursive unchanged. -/
def nestedDescentArgs (outer : FuseArgs) : FuseArgs :=
  { validateAll := outer.validateAll, device := outer.device,
    recursive := outer.recursive, tile := outer.tile }

/-- The shape of one region for the descent bookkeeping: how many candidate
scope bodies are descended into and how many NestedSDFG nodes the region
holds. -/
structure RegionShape where
  candCount : Nat
  nestedCount : Nat

/-- Lines 85-110: the argument records of all recursive greedy_fuse calls made
while processing one region: one scope-body descent per enumerated candidate
(only when the recursive flag is set), then one descent per NestedSDFG
node. -/
def stateDescentCalls (args : FuseArgs) (r : RegionShape) : List FuseArgs :=
  (if args.recursive then List.replicate r.candCount (scopeDescentArgs args) else []) ++
  List.replicate r.nestedCount (nestedDescentArgs args)

/-! ## find_fast_library (lines 278-294) -/

/-- Lines 278-294: the per-device implementation preference list.  The two
Booleans are the results of the installation probes
mkl.IntelMKL.is_installed() and openblas.OpenBLAS.is_installed(). -/
def find_fast_library (device : Device) (mklInstalled openblasInstalled : Bool) :
    List String :=
  match device with
  | Device.GPU => ["cuBLAS", "CUB", "pure"]
  | Device.CPU =>
    (if mklInstalled then ["MKL"]
     else if openblasInstalled then ["OpenBLAS"]
     else []) ++ ["pure"]
  | Device.FPGA => ["pure"]

/-! ## set_fast_implementations, second pass (lines 356-365) -/

/-- A library node: its name, its kind (standing for type(node)), the
implementations it supports, and its current implementation choice. -/
structure LibNode where
  name : String
  kind : Nat
  implementations : List String
  implementation : Option String
deriving DecidableEq

/-- Lines 356-365: the second pass on one library node.  A node of an ignored
kind is untouched.  Otherwise the for/else loop assigns the first entry of the
preference list the node supports; when no entry is supported the node is left
unchanged and a warning naming the node is returned (never a failure). -/
def selectNodeImplementation (prio : List String) (ignoreKinds : List Nat)
    (n : LibNode) : LibNode × Option String :=
  if ignoreKinds.contains n.kind then (n, none)
  else
    match prio.find? (fun impl => n.implementations.contains impl) with
    | some impl => ({ n with implementation := some impl }, none)
    | none => (n, some n.name)

/-- Lines 356-365: the second pass over all library nodes, collecting the
emitted warnings; every node is processed, warnings never stop the
traversal. -/
def setFastSecondPass (prio : List String) (ignoreKinds : List Nat) :
    List LibNode → List LibNode × List String
  | [] => ([], [])
  | n :: rest =>
    let r := selectNodeImplementation prio ignoreKinds n
    let rr := setFastSecondPass prio ignoreKinds rest
    (r.1 :: rr.1, (match r.2 with | some w => [w] | none => []) ++ rr.2)

/-- Spec-side characterization of the second pass, written from the words of
the specification: the first preference-list entry among those the node
supports. -/
def specFirstSupported : List String → List String → Option String
  | [], _ => none
  | p :: rest, supported =>
    if supported.contains p then some p else specFirstSupported rest supported

/-! ## move_small_arrays_to_stack (lines 297-322) -/

/-- Storage classes distinguished by the source. -/
inductive StorageType
  | Default
  | Register
  | GPU_Global
  | CPU_Heap
deriving DecidableEq

/-- Allocation lifetimes distinguished by the source. -/
inductive AllocLifetime
  | Scope
  | Persistent
  | SDFGLife
deriving DecidableEq

/-- The total size of a buffer as seen by the reclassifier: a concrete number,
a symbolic expression (symbolic.issymbolic is true), or an expression that
evaluates but whose comparison with the tile size raises TypeError. -/
inductive SymSize
  | concrete (n : Nat)
  | symbolic
  | nonComparable
deriving DecidableEq

/-- A buffer descriptor, reduced to the fields move_small_arrays_to_stack
reads: transient flag, streamness, storage class, allocation lifetime and
total element count. -/
structure BufferDesc where
  transient : Bool
  stream : Bool
  storage : StorageType
  lifetime : AllocLifetime
  totalSize : SymSize
deriving DecidableEq

/-- Lines 306-319: the reclassification of one buffer.  Streams are skipped;
a transient buffer with Default storage and Scope lifetime whose total size is
a concrete number at most the tile size is moved to Register storage; every
evaluation or comparison failure leaves the buffer unchanged. -/
def moveSmallStep (tile : Nat) (a : BufferDesc) : BufferDesc :=
  if a.stream then a
  else if a.transient && (a.storage == StorageType.Default)
      && (a.lifetime == AllocLifetime.Scope) then
    match a.totalSize with
    | SymSize.concrete n =>
      if n ≤ tile then { a with storage := StorageType.Register } else a
    | _ => a
  else a

/-- Lines 304-319: the whole pass, over the flattened recursive enumeration
sdfg.arrays_recursive() of every buffer of the program including nested
SDFGs. -/
def move_small_arrays_to_stack (tile : Nat) (arrays : List BufferDesc) :
    List BufferDesc :=
  arrays.map (moveSmallStep tile)

/-- Spec-side predicate, written from the words of the specification: the
buffer is transient, non-streaming, uses default storage and scope-bound
lifetime, and its total element count is a concrete number at most the
tile-size threshold. -/
def specSmallStack (tile : Nat) (a : BufferDesc) : Bool :=
  a.transient && !a.stream && (a.storage == StorageType.Default)
    && (a.lifetime == AllocLifetime.Scope)
    && (match a.totalSize with
        | SymSize.concrete n => decide (n ≤ tile)
        | _ => false)

/-! ## Concrete instances used by counterexamples and witnesses -/

/-- A concrete collaborator assignment.  The tiling transform is made
observable by prepending a fresh outer map with id shifted by 100; all other
transforms are identities, and the conflict analysis implicates map 0. -/
def cW1 : Collab :=
  { reasonOf := fun _ => some 0
    identityOf := fun _ _ => some 0
    conflictParams := fun _ _ => ["i"]
    extractDims := fun st _ _ => st
    tileMap := fun st mid _ =>
      { st with
        maps := { id := mid + 100, params := [], sizes := [],
                  schedule := ScheduleType.Default } :: st.maps }
    outEdgesOfExit := fun _ _ => []
    streamPathOk := fun _ _ => false
    streamTransient := fun st _ _ => st
    accumulate := fun st _ _ _ => st }

/-- A write-conflicted sum edge from a tasklet into an access node on array
A. -/
def eW1 : DEdge :=
  { srcKind := NKind.tasklet, dstKind := NKind.access,
    mem := { wcr := some RedType.sum, data := "A", wcrNonatomic := false,
             dynamic := false, empty := false, dstSubsetNonzero := false } }

/-- An edge with no write-conflict combinator. -/
def eNoWcr : DEdge :=
  { srcKind := NKind.tasklet, dstKind := NKind.access,
    mem := { wcr := none, data := "A", wcrNonatomic := false,
             dynamic := false, empty := false, dstSubsetNonzero := false } }

/-- A one-dimensional map of extent exactly 4. -/
def mW1 : MapScope :=
  { id := 0, params := ["i"], sizes := [SymNat.concrete 4],
    schedule := ScheduleType.Default }

/-- A state holding map mW1 and the conflicted edge eW1. -/
def stW1 : TState :=
  { maps := [mW1], edges := [eW1],
    arrays := [{ name := "A", dtype := DType.float64, stream := false }] }

/-- Configuration with tile-size threshold 4. -/
def cfgW1 : TConfig :=
  { tileSize := 4, autotilePP := false, debugPrint := false }

/-- A two-dimensional map of extents 2 and 3 (iteration count 6). -/
def mW2 : MapScope :=
  { id := 0, params := ["i", "j"],
    sizes := [SymNat.concrete 2, SymNat.concrete 3],
    schedule := ScheduleType.Default }

/-- A state holding map mW2 and the conflicted edge eW1. -/
def stW2 : TState :=
  { maps := [mW2], edges := [eW1],
    arrays := [{ name := "A", dtype := DType.float64, stream := false }] }

/-- Configuration with tile-size threshold 6. -/
def cfgW2 : TConfig :=
  { tileSize := 6, autotilePP := false, debugPrint := false }

/-- A one-dimensional map of extent exactly 6. -/
def mW2x : MapScope :=
  { id := 0, params := ["i"], sizes := [SymNat.concrete 6],
    schedule := ScheduleType.Default }

/-- A state holding only map mW2x. -/
def stW2x : TState := { maps := [mW2x], edges := [], arrays := [] }

/-- A one-dimensional map of extent 2, provably below threshold 4. -/
def mWs : MapScope :=
  { id := 0, params := ["i"], sizes := [SymNat.concrete 2],
    schedule := ScheduleType.Default }

/-- A state holding only map mWs. -/
def stWs : TState := { maps := [mWs], edges := [], arrays := [] }

/-- A state whose only edge carries no write-conflict combinator. -/
def stW4 : TState :=
  { maps := [mW1], edges := [eNoWcr],
    arrays := [{ name := "A", dtype := DType.float64, stream := false }] }

/-- A library node supporting no implementation at all. -/
def nW7 : LibNode :=
  { name := "GEMM", kind := 0, implementations := [], implementation := none }

/-- A transient default-storage scope-lifetime buffer of total size exactly
8. -/
def bW8 : BufferDesc :=
  { transient := true, stream := false, storage := StorageType.Default,
    lifetime := AllocLifetime.Scope, totalSize := SymSize.concrete 8 }

/-! ## Helper lemmas -/

/-- A filterMap over a list on which the function is constantly none is
empty. -/
theorem filterMap_none_eq_nil {α β : Type} (f : α → Option β) :
    ∀ l : List α, (∀ a ∈ l, f a = none) → l.filterMap f = []
  | [], _ => rfl
  | a :: l, h => by
    have ha : f a = none := h a (by simp)
    have hrest := filterMap_none_eq_nil f l (fun x hx => h x (by simp [hx]))
    simp [List.filterMap_cons, ha, hrest]

/-- The find-first loop of the second pass computes exactly the spec-side
first supported preference entry. -/
theorem find_eq_specFirstSupported (prio supported : List String) :
    prio.find? (fun impl => supported.contains impl) =
      specFirstSupported prio supported := by
  induction prio with
  | nil => rfl
  | cons p rest ih =>
    rw [List.find?_cons]
    by_cases h : p ∈ supported
    · have hc : supported.contains p = true := by simpa using h
      rw [hc]
      simp [specFirstSupported, h]
    · have hc : supported.contains p = false := by simpa using h
      rw [hc]
      simp only [specFirstSupported]
      rw [ih]
      simp [h]

/-- The second pass of set_fast_implementations processes every node. -/
theorem setFastSecondPass_length (prio : List String) (ign : List Nat)
    (ns : List LibNode) :
    (setFastSecondPass prio ign ns).1.length = ns.length := by
  induction ns with
  | nil => rfl
  | cons n rest ih => simp [setFastSecondPass, ih]

/-! ## Claim theorems -/

/-- C1, counterexample.  The tile-size threshold is 4 and the single
implicated map has full iteration size exactly 4, provably at the threshold;
the claim asserts the scope is made sequential, yet tile_wcrs takes the tiling
branch: the tiling transform runs (a second, outer map appears) and the
schedule of the original map stays Default. -/
theorem C1_counterexample :
    cfgW1.tileSize = 4 ∧ symProd mW1.sizes = SymNat.concrete 4 ∧
    (tile_wcrs_state cfgW1 cW1 none stW1).maps.length = 2 ∧
    (tile_wcrs_state cfgW1 cW1 none stW1).maps.map MapScope.schedule =
      [ScheduleType.Default, ScheduleType.Default] := by decide

/-- C1, amended.  For an implicated map not handled by extraction, the
sequential branch is taken exactly when every dimension size is provably
strictly below the tile-size threshold: the map is then not tiled and its
schedule is forced to Sequential.  Moreover a dimension size exactly equal to
the threshold is never provably below it, so such a scope takes the tiling
branch instead. -/
theorem C1_small_sequential (tile : Nat) (c : Collab) (st : TState)
    (tr : List Nat) (e : DEdge) (mid : Nat) (m : MapScope)
    (h1 : tr.contains mid = false)
    (h2 : st.maps.find? (fun x => x.id == mid) = some m)
    (h3 : m.sizes.all (fun s => provablyLt s tile) = true) :
    tileStep tile c (st, tr) (e, mid) =
      (setSchedule st mid ScheduleType.Sequential, mid :: tr) ∧
    provablyLt (SymNat.concrete tile) tile = false := by
  have h1m : mid ∉ tr := by simpa using h1
  constructor
  · simp [tileStep, h1m, h2, h3]
  · simp [provablyLt]

/-- Witness for C1_small_sequential at a concrete one-dimensional map of
extent 2 and threshold 4. -/
theorem C1_small_sequential_witness :
    tileStep 4 cW1 (stWs, []) (eW1, 0) =
      (setSchedule stWs 0 ScheduleType.Sequential, [0]) ∧
    provablyLt (SymNat.concrete 4) 4 = false :=
  C1_small_sequential 4 cW1 stWs [] eW1 0 mWs (by decide) (by decide) (by decide)

/-- C2, counterexample.  The tile-size threshold is 6 and the implicated map
has two dimensions of sizes 2 and 3, so its iteration count is exactly the
threshold; the claim asserts such a scope is tiled rather than made
sequential, yet the sequential-shortcut check compares each dimension size
separately (2 < 6 and 3 < 6 are both provably true), so tile_wcrs makes the
map sequential. -/
theorem C2_counterexample :
    cfgW2.tileSize = 6 ∧ symProd mW2.sizes = SymNat.concrete 6 ∧
    (tile_wcrs_state cfgW2 cW1 none stW2).maps.map MapScope.schedule =
      [ScheduleType.Sequential] := by decide

/-- C2, amended.  The boundary convention is strict comparison on the
quantities actually compared: the sequential-shortcut compares the individual
dimension sizes, so a scope one of whose dimension sizes exactly equals the
threshold takes the tiling branch; the extraction-benefit check compares the
size product of the extracted dimensions, so when that product exactly equals
the threshold the extraction is attempted rather than skipped. -/
theorem C2_amended (tile : Nat) (c : Collab) (etc : List (DEdge × Nat))
    (st : TState) (tr : List Nat) (e : DEdge) (mid : Nat) (m : MapScope)
    (h1 : tr.contains mid = false)
    (h2 : st.maps.find? (fun x => x.id == mid) = some m) :
    (SymNat.concrete tile ∈ m.sizes →
      tileStep tile c (st, tr) (e, mid) = (tilingBranch tile c st mid, mid :: tr)) ∧
    (nonconflictedDims m.params (conflictsOf c etc mid) ≠ [] →
      symProd (selectedSizes m.sizes (nonconflictedDims m.params (conflictsOf c etc mid))) =
        SymNat.concrete tile →
      extractStep tile c etc (st, tr) mid =
        (c.extractDims st mid (nonconflictedDims m.params (conflictsOf c etc mid)),
         mid :: tr)) := by
  constructor
  · intro hmem
    have hall : m.sizes.all (fun s => provablyLt s tile) = false := by
      cases hcase : m.sizes.all (fun s => provablyLt s tile) with
      | false => rfl
      | true =>
        exfalso
        have hx := List.all_eq_true.mp hcase _ hmem
        simp [provablyLt] at hx
    have h1m : mid ∉ tr := by simpa using h1
    simp [tileStep, h1m, h2, hall]
  · intro hne hprod
    have hskip :
        provablyLt
          (symProd (selectedSizes m.sizes (nonconflictedDims m.params (conflictsOf c etc mid))))
          tile = false := by
      rw [hprod]
      simp [provablyLt]
    have hemp :
        (nonconflictedDims m.params (conflictsOf c etc mid)).isEmpty = false := by
      cases hd : nonconflictedDims m.params (conflictsOf c etc mid) with
      | nil => exact absurd hd hne
      | cons x xs => simp
    simp [extractStep, h2, hemp, hskip]

/-- Witness for C2_amended at a concrete one-dimensional map of extent
exactly 6 and threshold 6: the tiling branch is taken. -/
theorem C2_amended_witness :
    tileStep 6 cW1 (stW2x, []) (eW1, 0) = (tilingBranch 6 cW1 stW2x 0, [0]) :=
  (C2_amended 6 cW1 [] stW2x [] eW1 0 mW2x (by decide) (by decide)).1 (by decide)

/-- C3.  Every write-conflicted edge the tiler accepts has a resolvable
reduction identity for its buffer element type and reduction type pair: at
discovery every retained (edge, map) pair has one; at accumulation-buffer
insertion the accepted edge yields exactly the identity the buffer is seeded
with; an edge with no resolvable identity is accepted at neither stage and the
accumulation step leaves the state unchanged on it. -/
theorem C3_identity_required (c : Collab) (st : TState) (e : DEdge) (mid : Nat) :
    ((e, mid) ∈ edgesToConsider c st →
      ∃ red, e.mem.wcr = some red ∧
        (c.identityOf (lookupDType st e.mem.data) red).isSome = true) ∧
    (∀ idv : Int, accumulateIdentity c st e = some idv →
      ∃ red, e.mem.wcr = some red ∧
        c.identityOf (lookupDType st e.mem.data) red = some idv) ∧
    ((∀ red, c.identityOf (lookupDType st e.mem.data) red = none) →
      ¬ (e, mid) ∈ edgesToConsider c st ∧ accumulateIdentity c st e = none) ∧
    (lookupStream st e.mem.data = false → accumulateIdentity c st e = none →
      accumulateEdgeStep c mid st e = st) := by
  have p1 : (e, mid) ∈ edgesToConsider c st →
      ∃ red, e.mem.wcr = some red ∧
        (c.identityOf (lookupDType st e.mem.data) red).isSome = true := by
    intro hmem
    rcases List.mem_filterMap.mp hmem with ⟨a, _, hacc⟩
    unfold discoveryAccept at hacc
    repeat' split at hacc
    all_goals simp_all
  have p2 : ∀ idv : Int, accumulateIdentity c st e = some idv →
      ∃ red, e.mem.wcr = some red ∧
        c.identityOf (lookupDType st e.mem.data) red = some idv := by
    intro idv hid
    unfold accumulateIdentity at hid
    repeat' split at hid
    all_goals first
      | (cases hid)
      | (exact ⟨_, by assumption, hid⟩)
  refine ⟨p1, p2, ?_, ?_⟩
  · intro hnone
    constructor
    · intro hmem
      rcases p1 hmem with ⟨red, _, hsome⟩
      rw [hnone red] at hsome
      cases hsome
    · cases hid : accumulateIdentity c st e with
      | none => rfl
      | some idv =>
        rcases p2 idv hid with ⟨red, _, heq⟩
        rw [hnone red] at heq
        cases heq
  · intro hs hn
    simp [accumulateEdgeStep, hs, hn]

/-- Witness for C3_identity_required: the retained edge eW1 of state stW1 has
a resolvable identity. -/
theorem C3_witness :
    ∃ red, eW1.mem.wcr = some red ∧
      (cW1.identityOf (lookupDType stW1 eW1.mem.data) red).isSome = true :=
  (C3_identity_required cW1 stW1 eW1 0).1 (by decide)

/-- C4.  No-op safety: when no edge of the state carries a write-conflict
combinator, tile_wcrs returns the state unchanged: no map is added or removed,
no schedule is altered, no edge is touched and no array descriptor is
modified. -/
theorem C4_noop (cfg : TConfig) (c : Collab) (preferArg : Option Bool)
    (st : TState) (h : ∀ e ∈ st.edges, e.mem.wcr = none) :
    tile_wcrs_state cfg c preferArg st = st := by
  have hetc : edgesToConsider c st = [] := by
    apply filterMap_none_eq_nil
    intro e he
    have hw := h e he
    unfold discoveryAccept
    rw [hw]
  unfold tile_wcrs_state
  rw [hetc]
  simp

/-- Witness for C4_noop on a concrete state whose single edge carries no
write-conflict combinator. -/
theorem C4_noop_witness : tile_wcrs_state cfgW1 cW1 none stW4 = stW4 :=
  C4_noop cfgW1 cW1 none stW4 (by decide)

/-- C5, counterexample.  With validateEach unset and one applied fusion, the
code still validates right after the fusion (one stepValidate event) and does
not validate at the end of the region pass (no endValidate event); the claim
asserts the opposite on both counts. -/
theorem C5_counterexample :
    (stateFuseEvents false [2]).count GFEvent.stepValidate = 1 ∧
    (stateFuseEvents false [2]).count GFEvent.endValidate = 0 := by decide

/-- C5, amended.  In the greedy fusion engine, validation after an applied
fusion happens unconditionally, once per applied fusion, regardless of the
validateEach flag; the end-of-pass validation of the region happens exactly
when validateEach is set, regardless of whether any fusion was applied. -/
theorem C5_validation_events (va : Bool) (cs : List Nat) :
    (stateFuseEvents va cs).count GFEvent.stepValidate =
      (stateFuseEvents va cs).count GFEvent.fusionApplied ∧
    (stateFuseEvents va cs).count GFEvent.endValidate =
      (if va then 1 else 0) := by
  induction cs with
  | nil =>
    cases va <;> simp [stateFuseEvents]
  | cons n rest ih =>
    have hsplit : stateFuseEvents va (n :: rest) =
        (if 1 < n then [GFEvent.fusionApplied, GFEvent.stepValidate] else []) ++
          stateFuseEvents va rest := by
      simp [stateFuseEvents, List.append_assoc]
    constructor
    · rw [hsplit, List.count_append, List.count_append, ih.1]
      by_cases h : 1 < n <;> simp [h]
    · rw [hsplit, List.count_append, ih.2]
      by_cases h : 1 < n <;> simp [h]

/-- C6.  The preference list: for a GPU device the vendor GPU libraries come
in the fixed order cuBLAS, CUB and only then the generic fallback; for a CPU
device the list is at most one best-installed vendor library followed by the
generic fallback, MKL is present exactly when its probe reports installed, and
OpenBLAS exactly when MKL is absent and its own probe reports installed; for
any other device the list is the generic fallback only. -/
theorem C6_preference_list (mkl ob : Bool) :
    find_fast_library Device.GPU mkl ob = ["cuBLAS", "CUB", "pure"] ∧
    (find_fast_library Device.CPU mkl ob).getLast? = some "pure" ∧
    (find_fast_library Device.CPU mkl ob).length ≤ 2 ∧
    ((find_fast_library Device.CPU mkl ob).contains "MKL") = mkl ∧
    ((find_fast_library Device.CPU mkl ob).contains "OpenBLAS") = (!mkl && ob) ∧
    find_fast_library Device.FPGA mkl ob = ["pure"] := by
  cases mkl <;> cases ob <;> decide

/-- C7.  Second pass of set_fast_implementations: a library node not of an
ignored kind is assigned the first preference-list entry among those it
supports; when it supports none, its implementation field is left unchanged
and a non-fatal warning naming the node is emitted; and the pass processes
every node of the list (a warning never stops processing). -/
theorem C7_second_pass (prio : List String) (ign : List Nat) (n : LibNode)
    (ns : List LibNode)
    (h : ign.contains n.kind = false) :
    (∀ impl, specFirstSupported prio n.implementations = some impl →
      selectNodeImplementation prio ign n =
        ({ n with implementation := some impl }, none)) ∧
    (specFirstSupported prio n.implementations = none →
      selectNodeImplementation prio ign n = (n, some n.name)) ∧
    (setFastSecondPass prio ign ns).1.length = ns.length := by
  refine ⟨?_, ?_, setFastSecondPass_length prio ign ns⟩
  · intro impl himpl
    unfold selectNodeImplementation
    rw [find_eq_specFirstSupported, himpl, h]
    simp
  · intro hnone
    unfold selectNodeImplementation
    rw [find_eq_specFirstSupported, hnone, h]
    simp

/-- Witness for C7_second_pass: a node supporting no implementation keeps its
default and yields a warning naming it. -/
theorem C7_witness :
    selectNodeImplementation ["MKL", "pure"] [] nW7 = (nW7, some "GEMM") :=
  (C7_second_pass ["MKL", "pure"] [] nW7 [] (by decide)).2.1 (by decide)

/-- C8.  The storage reclassifier moves a buffer to Register storage exactly
when it is transient, non-streaming, uses Default storage and Scope lifetime,
and its total element count is a concrete number at most the tile-size
threshold (equality included); every other buffer, in particular any buffer
whose size evaluation or comparison fails, is left unchanged, and the pass
maps every buffer of the recursive enumeration independently. -/
theorem C8_reclassify (tile : Nat) (arrays : List BufferDesc) (a : BufferDesc) :
    (specSmallStack tile a = true →
      moveSmallStep tile a = { a with storage := StorageType.Register }) ∧
    (specSmallStack tile a = false → moveSmallStep tile a = a) ∧
    move_small_arrays_to_stack tile arrays = arrays.map (moveSmallStep tile) := by
  refine ⟨?_, ?_, rfl⟩ <;>
    · intro h
      rcases a with ⟨tr, strm, stor, lt, sz⟩
      cases tr <;> cases strm <;> cases stor <;> cases lt <;> cases sz <;>
        simp_all [specSmallStack, moveSmallStep]

/-- Witness for C8_reclassify: a qualifying buffer of total size exactly equal
to the threshold 8 is moved to Register storage. -/
theorem C8_witness :
    moveSmallStep 8 bW8 = { bW8 with storage := StorageType.Register } :=
  (C8_reclassify 8 [] bW8).1 (by decide)

/-- C9.  The recursive scope-body descent of greedy_fuse forwards only the
validateEach flag: device reverts to the CPU default, recursive to true and
tile to false; the NestedSDFG descent forwards the whole argument record
unchanged; and the calls made while processing one region are exactly these
two kinds. -/
theorem C9_descent_args (args : FuseArgs) (r : RegionShape) :
    scopeDescentArgs args =
      { validateAll := args.validateAll, device := Device.CPU,
        recursive := true, tile := false } ∧
    nestedDescentArgs args = args ∧
    stateDescentCalls args r =
      (if args.recursive then
        List.replicate r.candCount
          { validateAll := args.validateAll, device := Device.CPU,
            recursive := true, tile := false }
       else []) ++ List.replicate r.nestedCount args := by
  refine ⟨rfl, rfl, ?_⟩
  simp [stateDescentCalls, scopeDescentArgs, greedyFuseDefaultArgs, nestedDescentArgs]

/-- C10.  The SDFG-level loop of tile_wcrs does not forward the caller
preference: each state is processed with the preference argument unset, the
per-state behaviour is independent of the caller argument, and the unset
argument makes the extraction decision read the process-configuration
value. -/
theorem C10_not_forwarded (cfg : TConfig) (c : Collab) (v : Bool)
    (p : Option Bool) (states : List TState) :
    (perStateCallArgs { validateAll := v, preferPP := p }).preferPP = none ∧
    tile_wcrs_sdfg cfg c { validateAll := v, preferPP := p } states =
      tile_wcrs_sdfg cfg c { validateAll := v, preferPP := none } states ∧
    effectivePP (perStateCallArgs { validateAll := v, preferPP := p }).preferPP
        cfg.autotilePP = cfg.autotilePP := by
  exact ⟨rfl, rfl, rfl⟩

end DaceAuto
